import Mathlib

set_option maxRecDepth 2000

/-!
Shallow embedding of the Adafruit_MMC56x3 magnetometer driver
(src/Adafruit_MMC56x3.cpp) and proofs about its specification.

Modelling conventions:
* Machine bytes and 16-bit words are `Nat` with the C masking/truncation
  written out explicitly where the source performs it; `int32_t` values are
  `Int` (all stored values stay far below the 32-bit range, and the one cast
  from `uint32_t` to `int32_t` in the decode is made explicit by `toInt32`).
* The I2C bus is explicit: hardware register writes are logged as a list of
  `(Reg, value)` pairs, and hardware reads become function arguments (the
  status register over time is a stream `Nat → Nat`, a one-off read is a
  plain argument).
* Busy-wait loops on status bits are given a fuel parameter; `none` means
  the loop has not exited within `fuel` iterations.  Since this holds for
  every fuel when the polled bit stays clear, it expresses that the loop
  never terminates.
* `float` arithmetic is modelled exactly over `ℚ`; the decimal literals of
  the source (0.00625, 0.8) are the corresponding rationals.  The NaN
  sentinel returned by `readTemperature` in continuous mode is modelled as
  `Option.none` of the inner option.
-/

namespace MMC56x3

/-- The hardware registers the driver touches.  The numeric addresses live in
the library header (`MMC56X3_CTRL0_REG`, ...); only their identities matter
for the driver logic, so they are modelled symbolically. -/
inductive Reg where
  | ctrl0
  | ctrl1
  | ctrl2
  | odr
  | status
  | outXL
  | outTemp
  | productId
  deriving DecidableEq, Repr

/-- A logged hardware register write: target register and byte written. -/
abbrev RegWrite := Reg × Nat

/-- Conversion of a machine word to `int32_t` (two's complement), making the
`uint32_t → int32_t` store in `readXYZ` explicit. -/
def toInt32 (n : Nat) : Int :=
  if n % 2 ^ 32 < 2 ^ 31 then ((n % 2 ^ 32 : Nat) : Int)
  else ((n % 2 ^ 32 : Nat) : Int) - 2 ^ 32

/-- One axis of the `readXYZ` decode (src lines 53-58):
`(uint32_t)hi << 12 | (uint32_t)mid << 4 | (uint32_t)lo >> 4`, stored into an
`int32_t` output. -/
def decodeAxis (hi mid lo : Nat) : Int :=
  toInt32 (hi <<< 12 ||| mid <<< 4 ||| lo >>> 4)

/-- `readXYZ` (src lines 46-59): decode the 9 bytes read starting at the X
output register into the three axis values.  X uses bytes 0,1,6; Y uses
bytes 2,3,7; Z uses bytes 4,5,8. -/
def readXYZ (buf : Fin 9 → Nat) : Int × Int × Int :=
  (decodeAxis (buf 0) (buf 1) (buf 6),
   decodeAxis (buf 2) (buf 3) (buf 7),
   decodeAxis (buf 4) (buf 5) (buf 8))

/-- The driver object's fields (class `Adafruit_MMC5603`): sensor id, last
raw reading `x, y, z`, calibration bias `bx, by, bz` (the source's `by` is a
Lean keyword, hence `bY`), and the two shadow caches `_odr_cache` (uint16)
and `_ctrl2_cache` (uint8). -/
structure DriverState where
  sensorID : Int
  x : Int
  y : Int
  z : Int
  bx : Int
  bY : Int
  bz : Int
  odr_cache : Nat
  ctrl2_cache : Nat
  deriving DecidableEq, Repr

/-- Modelled from the spec: the magnetic-field type tag written into
`event->type` (`SENSOR_TYPE_MAGNETIC_FIELD` from the external unified-sensor
header, absent from src; its concrete value is irrelevant to the driver). -/
def SENSOR_TYPE_MAGNETIC_FIELD : Nat := 2

/-- Modelled from the spec: `sizeof(sensors_event_t)`, written into
`event->version`; the struct layout lives in the external unified-sensor
header, absent from src. -/
def sensorsEventSize : Nat := 36

/-- The slice of `sensors_event_t` the driver touches, plus `reserved0`
standing for the bytes `memset` zeroes and `getEvent` never assigns. -/
structure MagEvent where
  version : Nat
  sensor_id : Int
  type : Nat
  reserved0 : Nat
  timestamp : Nat
  mag_x : ℚ
  mag_y : ℚ
  mag_z : ℚ
  deriving DecidableEq, Repr

/-- The all-zero event produced by `memset(event, 0, sizeof(...))`. -/
def zeroMagEvent : MagEvent :=
  { version := 0, sensor_id := 0, type := 0, reserved0 := 0, timestamp := 0
    mag_x := 0, mag_y := 0, mag_z := 0 }

/-- Status-register bit 6, the magnetic-measurement-done bit polled via
`Adafruit_BusIO_RegisterBits(_status_reg, 1, 6)`. -/
def magReadDone (status : Nat) : Bool :=
  (status >>> 6) &&& 1 != 0

/-- Status-register bit 7, the temperature-measurement-done bit polled via
`Adafruit_BusIO_RegisterBits(_status_reg, 1, 7)`. -/
def tempReadDone (status : Nat) : Bool :=
  (status >>> 7) &&& 1 != 0

/-- The driver's busy-wait loop `while (!bit.read()) delay(...)`, with an
explicit iteration budget: `bit n` is the value of the polled bit at the
n-th read.  `some n` means the loop exited after observing the bit set at
read `n`; `none` means it was still spinning after `fuel` reads. -/
def busyPoll (bit : Nat → Bool) (start fuel : Nat) : Option Nat :=
  match fuel with
  | 0 => none
  | f + 1 => if bit start then some start else busyPoll bit (start + 1) f

/-- `isContinuousMode` (src line 234): `return _ctrl2_cache & 0x10;` —
a pure function of the ctrl2 shadow cache, no bus access. -/
def isContinuousMode (s : DriverState) : Bool :=
  s.ctrl2_cache &&& 0x10 != 0

/-- `setContinuousMode` (src lines 218-226).  Enabling writes 0x80 to ctrl0
and sets cache bit 0x10; disabling clears cache bit 0x10 (`&= ~0x10` on the
uint8 cache is `&&& 0xEF`); both flush the cache to the ctrl2 register. -/
def setContinuousMode (s : DriverState) (mode : Bool) : DriverState × List RegWrite :=
  if mode then
    let c := s.ctrl2_cache ||| 0x10
    ({ s with ctrl2_cache := c }, [(Reg.ctrl0, 0x80), (Reg.ctrl2, c)])
  else
    let c := s.ctrl2_cache &&& 0xEF
    ({ s with ctrl2_cache := c }, [(Reg.ctrl2, c)])

/-- `magnetSetReset` (src lines 205-210): pulse the set bit then the reset
bit on ctrl0 (delays are not modelled); touches no driver state. -/
def magnetSetReset : List RegWrite :=
  [(Reg.ctrl0, 0x08), (Reg.ctrl0, 0x10)]

/-- `reset` (src lines 193-200): soft-reset via ctrl1 bit 7, zero both
caches, degauss, force one-shot mode. -/
def reset (s : DriverState) : DriverState × List RegWrite :=
  let s1 := { s with odr_cache := 0, ctrl2_cache := 0 }
  let p := setContinuousMode s1 false
  (p.1, (Reg.ctrl1, 0x80) :: magnetSetReset ++ p.2)

/-- `setDataRate` (src lines 313-331).  Rates above 255 are clamped to the
sentinel 1000; the clamped rate is cached; 1000 writes 255 to the ODR
register and sets ctrl2 bit 0x80, otherwise the rate is written and bit 0x80
cleared (`&= ~0x80` on the uint8 cache is `&&& 0x7F`); the cache is flushed
to the ctrl2 register either way. -/
def setDataRate (s : DriverState) (rate : Nat) : DriverState × List RegWrite :=
  let rate := if 255 < rate then 1000 else rate
  if rate = 1000 then
    let c := s.ctrl2_cache ||| 0x80
    ({ s with odr_cache := rate, ctrl2_cache := c },
     [(Reg.odr, 255), (Reg.ctrl2, c)])
  else
    let c := s.ctrl2_cache &&& 0x7F
    ({ s with odr_cache := rate, ctrl2_cache := c },
     [(Reg.odr, rate), (Reg.ctrl2, c)])

/-- `getDataRate` (src line 339): `return _ctrl2_cache;`. -/
def getDataRate (s : DriverState) : Nat :=
  s.ctrl2_cache

/-- The bias computation of `calibrate` (src lines 174-176):
`(high + low) / 2` in C `int32_t` arithmetic, i.e. truncation toward zero. -/
def calibBias (high low : Int) : Int :=
  Int.tdiv (high + low) 2

/-- The part of `calibrate` (src lines 135-187) past the two status polls,
operating on the two 9-byte sample buffers `bufHigh` (after the SET pulse)
and `bufLow` (after the RESET pulse); `old_ctrl1` is the byte read from the
ctrl1 register on entry. -/
def calibrateFinish (s : DriverState) (old_ctrl1 : Nat) (bufHigh bufLow : Fin 9 → Nat) :
    DriverState × List RegWrite :=
  let old_ctrl2 := s.ctrl2_cache
  let p1 := setContinuousMode s false
  let rh := readXYZ bufHigh
  let rl := readXYZ bufLow
  let s2 := { p1.1 with
    bx := calibBias rh.1 rl.1
    bY := calibBias rh.2.1 rl.2.1
    bz := calibBias rh.2.2 rl.2.2 }
  let s3 := { s2 with ctrl2_cache := old_ctrl2 }
  let p4 := setContinuousMode s3 (isContinuousMode s3)
  (p4.1,
    p1.2 ++
    [(Reg.ctrl0, 0x08), (Reg.ctrl1, 0x20), (Reg.ctrl0, 0x01),
     (Reg.ctrl0, 0x10), (Reg.ctrl0, 0x01),
     (Reg.ctrl1, old_ctrl1), (Reg.ctrl2, old_ctrl2)] ++
    magnetSetReset ++ p4.2)

/-- `calibrate` (src lines 135-187).  `status1`/`status2` are the status
register values seen by the two busy-polls; the call returns `none` when
either poll is still spinning after `fuel` reads (the source then never
returns), otherwise the final state and write log. -/
def calibrate (s : DriverState) (old_ctrl1 : Nat) (status1 : Nat → Nat)
    (bufHigh : Fin 9 → Nat) (status2 : Nat → Nat) (bufLow : Fin 9 → Nat)
    (fuel : Nat) : Option (DriverState × List RegWrite) :=
  match busyPoll (fun n => magReadDone (status1 n)) 0 fuel with
  | none => none
  | some _ =>
    match busyPoll (fun n => magReadDone (status2 n)) 0 fuel with
    | none => none
    | some _ => some (calibrateFinish s old_ctrl1 bufHigh bufLow)

/-- `readTemperature` (src lines 243-264).  In continuous mode it returns
NaN (inner `none`) at once.  Otherwise it triggers TM_T, busy-polls status
bit 7 over the stream `status`, and converts the temperature byte `tempByte`
by `t * 0.8 - 75`.  Outer `none`: the poll is still spinning after `fuel`
reads. -/
def readTemperature (s : DriverState) (status : Nat → Nat) (tempByte : Nat)
    (fuel : Nat) : Option (Option ℚ × List RegWrite) :=
  if isContinuousMode s then some (none, [])
  else
    match busyPoll (fun n => tempReadDone (status n)) 0 fuel with
    | none => none
    | some _ => some (some ((tempByte : ℚ) * 0.8 - 75), [(Reg.ctrl0, 0x02)])

/-- The trigger-and-poll prologue of `getEvent` (src lines 279-287): outside
continuous mode it triggers TM_M and busy-polls status bit 6; `none` means
the poll is still spinning after `fuel` reads. -/
def getEventTrigger (s : DriverState) (status : Nat → Nat) (fuel : Nat) :
    Option (List RegWrite) :=
  if isContinuousMode s then some []
  else
    match busyPoll (fun n => magReadDone (status n)) 0 fuel with
    | none => none
    | some _ => some [(Reg.ctrl0, 0x01)]

/-- `getEvent` (src lines 273-305).  Zero-initializes the event; runs the
trigger-and-poll prologue; decodes the 9-byte buffer, subtracts the bias
into the members `x, y, z`, and fills the event (timestamp from `millis()`
is the argument `now`).  Returns the source's `true` along with the new
state, the event and the write log; `none`: the poll is still spinning
after `fuel` reads. -/
def getEvent (s : DriverState) (status : Nat → Nat) (buf : Fin 9 → Nat)
    (now : Nat) (fuel : Nat) :
    Option (Bool × DriverState × MagEvent × List RegWrite) :=
  match getEventTrigger s status fuel with
  | none => none
  | some w =>
    let r := readXYZ buf
    let x := r.1 - s.bx
    let y := r.2.1 - s.bY
    let z := r.2.2 - s.bz
    let e := { zeroMagEvent with
      version := sensorsEventSize
      sensor_id := s.sensorID
      type := SENSOR_TYPE_MAGNETIC_FIELD
      timestamp := now
      mag_x := (x : ℚ) * 0.00625
      mag_y := (y : ℚ) * 0.00625
      mag_z := (z : ℚ) * 0.00625 }
    some (true, { s with x := x, y := y, z := z }, e, w)

/-! ### Bit-arithmetic helpers -/

/-- Bitwise or of a shifted value with a small value is plain addition. -/
lemma mul_pow_or_eq_add (a b k : Nat) (hb : b < 2 ^ k) :
    a * 2 ^ k ||| b = a * 2 ^ k + b := by
  apply Nat.eq_of_testBit_eq
  intro j
  rw [Nat.testBit_or, ← Nat.shiftLeft_eq, Nat.testBit_shiftLeft, Nat.shiftLeft_eq]
  rcases le_or_lt k j with hj | hj
  · have hbj : b.testBit j = false :=
      Nat.testBit_lt_two_pow (lt_of_lt_of_le hb (Nat.pow_le_pow_right (by omega) hj))
    have h2 : (2 : Nat) ^ j = 2 ^ k * 2 ^ (j - k) := by
      rw [← pow_add]; congr 1; omega
    have hpos : 0 < (2 : Nat) ^ k := pow_pos (by omega) k
    have h1 : (a * 2 ^ k + b) / 2 ^ j = a / 2 ^ (j - k) := by
      rw [h2, ← Nat.div_div_eq_div_mul]
      have h3 : (a * 2 ^ k + b) / 2 ^ k = a := by
        rw [Nat.mul_comm a, Nat.mul_add_div hpos]
        have := Nat.div_eq_of_lt hb
        omega
      rw [h3]
    have hd : decide (j ≥ k) = true := by simp [ge_iff_le, hj]
    rw [hd, Bool.true_and, hbj, Bool.or_false]
    rw [Nat.testBit_to_div_mod, Nat.testBit_to_div_mod, h1]
  · have hd : decide (j ≥ k) = false := by
      simp only [ge_iff_le, decide_eq_false_iff_not, not_le]; omega
    rw [hd, Bool.false_and, Bool.false_or]
    have hpos : 0 < (2 : Nat) ^ j := pow_pos (by omega) j
    have h2 : (2 : Nat) ^ k = 2 ^ j * 2 ^ (k - j) := by
      rw [← pow_add]; congr 1; omega
    have h5 : (2 : Nat) ^ (k - j) = 2 * 2 ^ (k - j - 1) := by
      rw [← pow_succ']; congr 1; omega
    have h4 : a * 2 ^ k + b = b + 2 ^ j * (2 * (a * 2 ^ (k - j - 1))) := by
      rw [h2, h5]; ring
    have key : (a * 2 ^ k + b) / 2 ^ j % 2 = b / 2 ^ j % 2 := by
      rw [h4, Nat.add_mul_div_left _ _ hpos]
      generalize a * 2 ^ (k - j - 1) = t
      omega
    rw [Nat.testBit_to_div_mod, Nat.testBit_to_div_mod, key]

/-- The single-axis decode in plain arithmetic: for bytes, the shift-or-shift
expression of the source is `hi * 4096 + mid * 16 + lo / 16`, a value below
`2 ^ 20`, and the `uint32_t → int32_t` store does not wrap. -/
lemma decodeAxis_eq (hi mid lo : Nat) (hhi : hi < 256) (hmid : mid < 256)
    (hlo : lo < 256) :
    decodeAxis hi mid lo = ((hi * 4096 + mid * 16 + lo / 16 : Nat) : Int) ∧
      hi * 4096 + mid * 16 + lo / 16 < 2 ^ 20 := by
  have hbound : hi * 4096 + mid * 16 + lo / 16 < 2 ^ 20 := by omega
  refine ⟨?_, hbound⟩
  have e1 : hi <<< 12 ||| mid <<< 4 ||| lo >>> 4
      = hi * 4096 + mid * 16 + lo / 16 := by
    rw [Nat.shiftLeft_eq, Nat.shiftLeft_eq, Nat.shiftRight_eq_div_pow]
    have o1 : hi * 2 ^ 12 ||| mid * 2 ^ 4 = hi * 2 ^ 12 + mid * 2 ^ 4 := by
      have h16 : mid * 2 ^ 4 < 2 ^ 12 := by omega
      exact mul_pow_or_eq_add hi (mid * 2 ^ 4) 12 h16
    have o2 : (hi * 2 ^ 8 + mid) * 2 ^ 4 ||| lo / 2 ^ 4
        = (hi * 2 ^ 8 + mid) * 2 ^ 4 + lo / 2 ^ 4 := by
      have hq : lo / 2 ^ 4 < 2 ^ 4 := by omega
      exact mul_pow_or_eq_add (hi * 2 ^ 8 + mid) (lo / 2 ^ 4) 4 hq
    rw [o1, show hi * 2 ^ 12 + mid * 2 ^ 4 = (hi * 2 ^ 8 + mid) * 2 ^ 4 by ring,
      o2]
    omega
  rw [decodeAxis, e1, toInt32]
  rw [Nat.mod_eq_of_lt (by omega)]
  rw [if_pos (by omega)]

/-- C1: for every 9-byte buffer read starting at the X output register, the
decode reconstructs each axis as a 20-bit unsigned value
`high * 2 ^ 12 + mid * 2 ^ 4 + low / 2 ^ 4` (the or of the shifted fields),
with X from bytes 0,1,6, Y from bytes 2,3,7 and Z from bytes 4,5,8. -/
theorem readXYZ_decodes_each_axis (buf : Fin 9 → Nat) (hb : ∀ i, buf i < 256) :
    readXYZ buf =
      (((buf 0 * 4096 + buf 1 * 16 + buf 6 / 16 : Nat) : Int),
       ((buf 2 * 4096 + buf 3 * 16 + buf 7 / 16 : Nat) : Int),
       ((buf 4 * 4096 + buf 5 * 16 + buf 8 / 16 : Nat) : Int)) ∧
    (0 ≤ (readXYZ buf).1 ∧ (readXYZ buf).1 < 2 ^ 20) ∧
    (0 ≤ (readXYZ buf).2.1 ∧ (readXYZ buf).2.1 < 2 ^ 20) ∧
    (0 ≤ (readXYZ buf).2.2 ∧ (readXYZ buf).2.2 < 2 ^ 20) := by
  obtain ⟨ex, bx⟩ := decodeAxis_eq (buf 0) (buf 1) (buf 6) (hb 0) (hb 1) (hb 6)
  obtain ⟨ey, bY⟩ := decodeAxis_eq (buf 2) (buf 3) (buf 7) (hb 2) (hb 3) (hb 7)
  obtain ⟨ez, bz⟩ := decodeAxis_eq (buf 4) (buf 5) (buf 8) (hb 4) (hb 5) (hb 8)
  refine ⟨?_, ?_, ?_, ?_⟩
  · simp only [readXYZ, ex, ey, ez]
  · simp only [readXYZ, ex]
    exact ⟨Int.natCast_nonneg _, by exact_mod_cast bx⟩
  · simp only [readXYZ, ey]
    exact ⟨Int.natCast_nonneg _, by exact_mod_cast bY⟩
  · simp only [readXYZ, ez]
    exact ⟨Int.natCast_nonneg _, by exact_mod_cast bz⟩

/-- A concrete 9-byte buffer used to instantiate hypotheses. -/
def sampleBuf : Fin 9 → Nat :=
  ![0x12, 0x34, 0x56, 0x78, 0x9A, 0xBC, 0xDE, 0xF0, 0x0F]

/-! ### Byte and cache-bit helpers -/

/-- Oring in bit 4 makes bit 4 readable: `(c ||| 0x10) &&& 0x10 = 0x10`. -/
lemma or16_and16 (c : Nat) : (c ||| 0x10) &&& 0x10 = 0x10 := by
  have h16 : (0x10 : Nat) = 2 ^ 4 := by norm_num
  rw [h16, Nat.and_two_pow, Nat.testBit_or,
    show ((2 ^ 4 : Nat).testBit 4) = true by decide, Bool.or_true]
  decide

/-- Masking with `0xEF` clears bit 4. -/
lemma andEF_and16 (c : Nat) : (c &&& 0xEF) &&& 0x10 = 0 := by
  rw [Nat.and_assoc, show (0xEF &&& 0x10 : Nat) = 0 by rfl, Nat.and_zero]

/-- Oring in bit 7 makes bit 7 readable: `(c ||| 0x80) &&& 0x80 = 0x80`. -/
lemma or128_and128 (c : Nat) : (c ||| 0x80) &&& 0x80 = 0x80 := by
  have h128 : (0x80 : Nat) = 2 ^ 7 := by norm_num
  rw [h128, Nat.and_two_pow, Nat.testBit_or,
    show ((2 ^ 7 : Nat).testBit 7) = true by decide, Bool.or_true]
  decide

/-- Masking with `0x7F` leaves bit 4 alone. -/
lemma and127_and16 (c : Nat) : (c &&& 0x7F) &&& 0x10 = c &&& 0x10 := by
  rw [Nat.and_assoc, show (0x7F &&& 0x10 : Nat) = 0x10 by rfl]

/-- Oring in bit 7 leaves bit 4 alone. -/
lemma or128_and16 (c : Nat) : (c ||| 0x80) &&& 0x10 = c &&& 0x10 := by
  have h16 : (0x10 : Nat) = 2 ^ 4 := by norm_num
  rw [h16, Nat.and_two_pow, Nat.and_two_pow, Nat.testBit_or,
    show (0x80 : Nat) = 2 ^ 7 by norm_num, Nat.testBit_two_pow]
  simp

/-- Oring in bit 7 changes no other bit. -/
lemma or128_testBit (c j : Nat) (hj : j ≠ 7) :
    (c ||| 0x80).testBit j = c.testBit j := by
  rw [Nat.testBit_or, show (0x80 : Nat) = 2 ^ 7 by norm_num, Nat.testBit_two_pow]
  simp [Ne.symm hj]

/-- On a byte, masking with `0x7F` changes no bit other than bit 7. -/
lemma and127_testBit (c j : Nat) (hc : c < 256) (hj : j ≠ 7) :
    (c &&& 0x7F).testBit j = c.testBit j := by
  rw [Nat.testBit_and, show (0x7F : Nat) = 2 ^ 7 - 1 by norm_num,
    Nat.testBit_two_pow_sub_one]
  rcases lt_or_le j 7 with h | h
  · simp [h]
  · have hj8 : 8 ≤ j := by omega
    have h2j : 256 ≤ 2 ^ j := by
      calc (256 : Nat) = 2 ^ 8 := by norm_num
      _ ≤ 2 ^ j := Nat.pow_le_pow_right (by omega) hj8
    have hcj : c.testBit j = false :=
      Nat.testBit_lt_two_pow (lt_of_lt_of_le hc h2j)
    simp [hcj]

/-- On a byte with bit 4 set, oring in bit 4 is the identity. -/
lemma byte_or16_self : ∀ c : Fin 256, c.val &&& 0x10 ≠ 0 → c.val ||| 0x10 = c.val := by
  decide

/-- On a byte with bit 4 clear, masking with `0xEF` is the identity. -/
lemma byte_andEF_self : ∀ c : Fin 256, c.val &&& 0x10 = 0 → c.val &&& 0xEF = c.val := by
  decide

/-- A byte holding only the cmm_en/hpower bits, with cmm_en clear, dies under
the `0x7F` mask. -/
lemma byte_ok_and127 : ∀ c : Fin 256,
    c.val &&& 0x90 = c.val → c.val &&& 0x10 = 0 → c.val &&& 0x7F = 0 := by
  decide

/-- Concrete driver states used to instantiate hypotheses. -/
def sA : DriverState :=
  { sensorID := 1, x := 2, y := 3, z := 4, bx := 5, bY := 6, bz := 7
    odr_cache := 8, ctrl2_cache := 0x10 }

/-- A second concrete state sharing `sA`'s ctrl2 cache. -/
def sB : DriverState :=
  { sensorID := 9, x := 8, y := 7, z := 6, bx := 5, bY := 4, bz := 3
    odr_cache := 2, ctrl2_cache := 0x10 }

/-- The all-zero driver state (the cache state right after `reset`). -/
def sZero : DriverState :=
  { sensorID := 0, x := 0, y := 0, z := 0, bx := 0, bY := 0, bz := 0
    odr_cache := 0, ctrl2_cache := 0 }

/-! ### Mode control (C7) -/

/-- C7: `setContinuousMode m` followed by `isContinuousMode` returns `m`,
and `isContinuousMode` is a pure function of ctrl2-cache bit `0x10` (it is
`testBit 4` of the cache, and agrees on any two states with equal caches);
in the embedding it performs no bus access by type. -/
theorem continuousMode_cache_roundtrip :
    (∀ (s : DriverState) (m : Bool),
      isContinuousMode (setContinuousMode s m).1 = m) ∧
    (∀ s : DriverState, isContinuousMode s = s.ctrl2_cache.testBit 4) ∧
    (∀ s t : DriverState, s.ctrl2_cache = t.ctrl2_cache →
      isContinuousMode s = isContinuousMode t) := by
  refine ⟨?_, ?_, ?_⟩
  · intro s m
    cases m with
    | true =>
      simp only [setContinuousMode, if_pos, isContinuousMode]
      rw [or16_and16]
      decide
    | false =>
      simp only [setContinuousMode, if_neg, isContinuousMode, Bool.false_eq_true,
        ite_false]
      rw [andEF_and16]
      decide
  · intro s
    rw [isContinuousMode, show (0x10 : Nat) = 2 ^ 4 by norm_num, Nat.and_two_pow]
    cases h : s.ctrl2_cache.testBit 4 <;> simp [h]
  · intro s t h
    rw [isContinuousMode, isContinuousMode, h]

/-- Witness for C7: the cache-equality conjunct applied at two concrete
states, and the roundtrip at a concrete state. -/
theorem continuousMode_cache_roundtrip_witness :
    isContinuousMode sA = isContinuousMode sB ∧
    isContinuousMode (setContinuousMode sZero true).1 = true :=
  ⟨continuousMode_cache_roundtrip.2.2 sA sB rfl,
   continuousMode_cache_roundtrip.1 sZero true⟩

/-! ### Data rate (C4, C6, C10) -/

/-- `setDataRate` leaves the ctrl2 cache in one of exactly two shapes:
the old cache with bit 7 set, or with bit 7 cleared. -/
lemma setDataRate_cache_shape (s : DriverState) (rate : Nat) :
    (setDataRate s rate).1.ctrl2_cache = s.ctrl2_cache ||| 0x80 ∨
    (setDataRate s rate).1.ctrl2_cache = s.ctrl2_cache &&& 0x7F := by
  simp only [setDataRate]
  by_cases h : 255 < rate
  · rw [if_pos h, if_pos (rfl : (1000 : Nat) = 1000)]
    exact Or.inl rfl
  · rw [if_neg h]
    by_cases h2 : rate = 1000
    · rw [if_pos h2]
      exact Or.inl rfl
    · rw [if_neg h2]
      exact Or.inr rfl

/-- C4: `getDataRate` returns the ctrl2 shadow cache byte, not the rate
stored by `setDataRate`: whenever the cache holds only the bits this driver
ever sets in it (`0x90`) and the continuous bit is clear, `setDataRate r`
followed by `getDataRate` returns 0, not `r`, for every `r ∈ [1, 255]`. -/
theorem getDataRate_returns_ctrl2_cache :
    (∀ s : DriverState, getDataRate s = s.ctrl2_cache) ∧
    (∀ (s : DriverState) (r : Nat),
      s.ctrl2_cache &&& 0x90 = s.ctrl2_cache → s.ctrl2_cache &&& 0x10 = 0 →
      1 ≤ r → r ≤ 255 → getDataRate (setDataRate s r).1 ≠ r) := by
  constructor
  · intro s
    rfl
  · intro s r hOK h16 h1 h255
    have hle : s.ctrl2_cache ≤ 0x90 := by
      conv_lhs => rw [← hOK]
      exact Nat.and_le_right
    have hc : s.ctrl2_cache &&& 0x7F = 0 :=
      byte_ok_and127 ⟨s.ctrl2_cache, by omega⟩ hOK h16
    simp only [setDataRate, getDataRate]
    rw [if_neg (show ¬ 255 < r by omega), if_neg (show ¬ r = 1000 by omega)]
    simpa [hc] using by omega

/-- Witness for C4 at the post-reset cache and rate 100. -/
theorem getDataRate_returns_ctrl2_cache_witness :
    getDataRate (setDataRate sZero 100).1 ≠ 100 :=
  getDataRate_returns_ctrl2_cache.2 sZero 100 rfl rfl (by omega) (by omega)

/-- C6: every rate above 255 behaves exactly like 1000: the rate cache is
set to 1000, 255 goes to the ODR register, and the high-power bit `0x80` is
set in the ctrl2 cache and flushed to the ctrl2 register. -/
theorem setDataRate_clamps_high_rates (s : DriverState) (rate : Nat)
    (h : 255 < rate) :
    setDataRate s rate = setDataRate s 1000 ∧
    (setDataRate s rate).1.odr_cache = 1000 ∧
    (setDataRate s rate).1.ctrl2_cache = s.ctrl2_cache ||| 0x80 ∧
    (setDataRate s rate).1.ctrl2_cache &&& 0x80 = 0x80 ∧
    (setDataRate s rate).2 = [(Reg.odr, 255), (Reg.ctrl2, s.ctrl2_cache ||| 0x80)] := by
  have hu : setDataRate s rate = setDataRate s 1000 := by
    simp only [setDataRate]
    rw [if_pos h, if_pos (show (255 : Nat) < 1000 by omega)]
  refine ⟨hu, ?_, ?_, ?_, ?_⟩ <;>
    · rw [hu]
      simp only [setDataRate]
      rw [if_pos (show (255 : Nat) < 1000 by omega)]
      simp [or128_and128]

/-- Witness for C6: `setDataRate 300` equals `setDataRate 1000`. -/
theorem setDataRate_clamps_high_rates_witness :
    setDataRate sA 300 = setDataRate sA 1000 :=
  (setDataRate_clamps_high_rates sA 300 (by omega)).1

/-- C10: `setDataRate` changes at most bit 7 (the high-power bit) of the
ctrl2 cache — every other bit of the byte, in particular the continuous
bit `0x10`, is untouched, so `isContinuousMode` is unchanged. -/
theorem setDataRate_touches_only_hpower_bit (s : DriverState) (rate : Nat)
    (hc : s.ctrl2_cache < 256) :
    (∀ j, j ≠ 7 →
      (setDataRate s rate).1.ctrl2_cache.testBit j = s.ctrl2_cache.testBit j) ∧
    isContinuousMode (setDataRate s rate).1 = isContinuousMode s := by
  rcases setDataRate_cache_shape s rate with h | h
  · constructor
    · intro j hj
      rw [h, or128_testBit _ _ hj]
    · rw [isContinuousMode, isContinuousMode, h, or128_and16]
  · constructor
    · intro j hj
      rw [h, and127_testBit _ _ hc hj]
    · rw [isContinuousMode, isContinuousMode, h, and127_and16]

/-- Witness for C10 at a concrete state and rate. -/
theorem setDataRate_touches_only_hpower_bit_witness :
    (setDataRate sA 100).1.ctrl2_cache.testBit 4 = sA.ctrl2_cache.testBit 4 ∧
    isContinuousMode (setDataRate sA 100).1 = isContinuousMode sA :=
  ⟨(setDataRate_touches_only_hpower_bit sA 100 (by decide)).1 4 (by omega),
   (setDataRate_touches_only_hpower_bit sA 100 (by decide)).2⟩

/-! ### Temperature (C5) -/

/-- C5: `readTemperature` returns the NaN sentinel exactly when
`isContinuousMode` holds at call time; outside continuous mode, a completed
call returns the temperature byte under the affine map `t * 0.8 - 75`
(never the sentinel). -/
theorem readTemperature_nan_iff_continuous :
    (∀ (s : DriverState) (status : Nat → Nat) (tempByte fuel : Nat),
      isContinuousMode s = true →
      readTemperature s status tempByte fuel = some (none, [])) ∧
    (∀ (s : DriverState) (status : Nat → Nat) (tempByte fuel : Nat)
      (p : Option ℚ × List RegWrite),
      isContinuousMode s = false →
      readTemperature s status tempByte fuel = some p →
      p.1 = some ((tempByte : ℚ) * 0.8 - 75)) := by
  constructor
  · intro s status tempByte fuel h
    simp [readTemperature, h]
  · intro s status tempByte fuel p h heq
    rw [readTemperature, if_neg (by simp [h])] at heq
    cases hb : busyPoll (fun n => tempReadDone (status n)) 0 fuel with
    | none => rw [hb] at heq; cases heq
    | some n =>
      rw [hb] at heq
      cases heq
      rfl

/-- Witness for C5: continuous mode yields the sentinel; a completed
one-shot read yields the affine value. -/
theorem readTemperature_nan_iff_continuous_witness :
    readTemperature sA (fun _ => 0) 100 3 = some (none, []) ∧
    (some ((100 : ℚ) * 0.8 - 75), ([(Reg.ctrl0, 0x02)] : List RegWrite)).1
      = some ((100 : ℚ) * 0.8 - 75) :=
  ⟨readTemperature_nan_iff_continuous.1 sA (fun _ => 0) 100 3 rfl,
   readTemperature_nan_iff_continuous.2 sZero (fun _ => 255) 100 3
     (some ((100 : ℚ) * 0.8 - 75), [(Reg.ctrl0, 0x02)]) rfl rfl⟩

/-- Witness for C1 at a concrete buffer. -/
theorem readXYZ_decodes_each_axis_witness :
    0 ≤ (readXYZ sampleBuf).1 ∧ (readXYZ sampleBuf).1 < 2 ^ 20 :=
  (readXYZ_decodes_each_axis sampleBuf (by decide)).2.1

/-! ### Unbounded busy-polls (C9) -/

/-- If the polled bit never reads as set, the busy-wait loop is still
spinning after any number of iterations. -/
lemma busyPoll_none (bit : Nat → Bool) (h : ∀ n, bit n = false) :
    ∀ start fuel, busyPoll bit start fuel = none := by
  intro start fuel
  induction fuel generalizing start with
  | zero => rfl
  | succ f ih =>
    simp only [busyPoll, h start, Bool.false_eq_true, if_false]
    exact ih (start + 1)

/-- C9: the status-bit busy-wait loops have no retry bound: for every status
sequence in which the polled done bit never reads as set, `busyPoll` returns
`none` for every fuel, and `readTemperature` (one-shot), `getEvent`
(one-shot) and `calibrate` likewise never return — no timeout error exists
in their result types to be surfaced. -/
theorem busy_polls_unbounded_no_timeout :
    (∀ bit : Nat → Bool, (∀ n, bit n = false) →
      ∀ start fuel, busyPoll bit start fuel = none) ∧
    (∀ (s : DriverState) (status : Nat → Nat) (tempByte fuel : Nat),
      isContinuousMode s = false → (∀ n, tempReadDone (status n) = false) →
      readTemperature s status tempByte fuel = none) ∧
    (∀ (s : DriverState) (status : Nat → Nat) (buf : Fin 9 → Nat) (now fuel : Nat),
      isContinuousMode s = false → (∀ n, magReadDone (status n) = false) →
      getEvent s status buf now fuel = none) ∧
    (∀ (s : DriverState) (old_ctrl1 : Nat) (status1 : Nat → Nat)
        (bufHigh : Fin 9 → Nat) (status2 : Nat → Nat) (bufLow : Fin 9 → Nat)
        (fuel : Nat),
      (∀ n, magReadDone (status1 n) = false) →
      calibrate s old_ctrl1 status1 bufHigh status2 bufLow fuel = none) := by
  refine ⟨busyPoll_none, ?_, ?_, ?_⟩
  · intro s status tempByte fuel hc hbit
    rw [readTemperature, if_neg (by simp [hc]),
      busyPoll_none (fun n => tempReadDone (status n)) hbit 0 fuel]
  · intro s status buf now fuel hc hbit
    rw [getEvent, getEventTrigger, if_neg (by simp [hc]),
      busyPoll_none (fun n => magReadDone (status n)) hbit 0 fuel]
  · intro s old_ctrl1 status1 bufHigh status2 bufLow fuel hbit
    rw [calibrate, busyPoll_none (fun n => magReadDone (status1 n)) hbit 0 fuel]

/-- Witness for C9: with the status register stuck at 0 the three polling
operations return `none` at a concrete fuel. -/
theorem busy_polls_unbounded_no_timeout_witness :
    readTemperature sZero (fun _ => 0) 100 5 = none ∧
    getEvent sZero (fun _ => 0) sampleBuf 17 5 = none ∧
    calibrate sA 0x20 (fun _ => 0) sampleBuf (fun _ => 0) sampleBuf 5 = none :=
  ⟨busy_polls_unbounded_no_timeout.2.1 sZero (fun _ => 0) 100 5 rfl
     (fun _ => show tempReadDone 0 = false by decide),
   busy_polls_unbounded_no_timeout.2.2.1 sZero (fun _ => 0) sampleBuf 17 5 rfl
     (fun _ => show magReadDone 0 = false by decide),
   busy_polls_unbounded_no_timeout.2.2.2 sA 0x20 (fun _ => 0) sampleBuf
     (fun _ => 0) sampleBuf 5 (fun _ => show magReadDone 0 = false by decide)⟩

/-! ### Event reporting (C2) -/

/-- C2: a completed `getEvent` call always returns `true`, and fills the
magnetic field of the zero-initialized event with `(raw - bias) * 0.00625`
per axis (`0.00625 = 1/160` exactly), stamping sensor id, the magnetic-field
type tag and the timestamp; the members `x, y, z` hold the bias-corrected
raw sample. -/
theorem getEvent_scales_and_stamps
    (s : DriverState) (status : Nat → Nat) (buf : Fin 9 → Nat) (now fuel : Nat)
    (r : Bool × DriverState × MagEvent × List RegWrite)
    (heq : getEvent s status buf now fuel = some r) :
    r.1 = true ∧
    r.2.2.1.mag_x = (((readXYZ buf).1 - s.bx : Int) : ℚ) * 0.00625 ∧
    r.2.2.1.mag_y = (((readXYZ buf).2.1 - s.bY : Int) : ℚ) * 0.00625 ∧
    r.2.2.1.mag_z = (((readXYZ buf).2.2 - s.bz : Int) : ℚ) * 0.00625 ∧
    r.2.2.1.sensor_id = s.sensorID ∧
    r.2.2.1.type = SENSOR_TYPE_MAGNETIC_FIELD ∧
    r.2.2.1.timestamp = now ∧
    r.2.2.1.version = sensorsEventSize ∧
    r.2.2.1.reserved0 = zeroMagEvent.reserved0 ∧
    r.2.1.x = (readXYZ buf).1 - s.bx ∧
    r.2.1.y = (readXYZ buf).2.1 - s.bY ∧
    r.2.1.z = (readXYZ buf).2.2 - s.bz ∧
    (0.00625 : ℚ) = 1 / 160 := by
  rw [getEvent] at heq
  cases htr : getEventTrigger s status fuel with
  | none =>
    rw [htr] at heq
    cases heq
  | some w =>
    rw [htr] at heq
    cases heq
    refine ⟨rfl, rfl, rfl, rfl, rfl, rfl, rfl, rfl, rfl, rfl, rfl, rfl, ?_⟩
    norm_num

/-- Witness for C2 at a concrete completed call (continuous mode, so no
poll is involved). -/
theorem getEvent_scales_and_stamps_witness :
    ∃ r, getEvent sA (fun _ => 0) sampleBuf 99 1 = some r ∧ r.1 = true := by
  cases E : getEvent sA (fun _ => 0) sampleBuf 99 1 with
  | none => exact absurd E (by decide)
  | some r =>
    exact ⟨r, rfl, (getEvent_scales_and_stamps sA (fun _ => 0) sampleBuf 99 1 r E).1⟩

/-! ### Calibration (C3, C8) -/

/-- `setContinuousMode` changes no driver field other than the ctrl2 cache. -/
lemma setContinuousMode_other_fields (s : DriverState) (m : Bool) :
    (setContinuousMode s m).1.sensorID = s.sensorID ∧
    (setContinuousMode s m).1.x = s.x ∧
    (setContinuousMode s m).1.y = s.y ∧
    (setContinuousMode s m).1.z = s.z ∧
    (setContinuousMode s m).1.bx = s.bx ∧
    (setContinuousMode s m).1.bY = s.bY ∧
    (setContinuousMode s m).1.bz = s.bz ∧
    (setContinuousMode s m).1.odr_cache = s.odr_cache := by
  cases m <;> simp [setContinuousMode]

/-- After `calibrateFinish` the ctrl2 cache equals its value on entry: the
saved byte is written back, and the final `setContinuousMode
(isContinuousMode ())` is the identity on a byte-valued cache. -/
lemma calibrateFinish_cache (s : DriverState) (oc1 : Nat) (bh bl : Fin 9 → Nat)
    (hc : s.ctrl2_cache < 256) :
    (calibrateFinish s oc1 bh bl).1.ctrl2_cache = s.ctrl2_cache := by
  simp only [calibrateFinish, setContinuousMode, isContinuousMode]
  by_cases hm : s.ctrl2_cache &&& 0x10 = 0
  · simp only [hm, bne_self_eq_false, Bool.false_eq_true, if_false]
    exact byte_andEF_self ⟨s.ctrl2_cache, hc⟩ hm
  · have ht : (s.ctrl2_cache &&& 0x10 != 0) = true := by
      simp only [bne_iff_ne, ne_eq]
      exact hm
    simp only [ht, if_true]
    exact byte_or16_self ⟨s.ctrl2_cache, hc⟩ hm

/-- `calibrateFinish` keeps every field except the bias vector and (up to
restore) the ctrl2 cache; the bias vector receives the per-axis
`calibBias` of the two decoded samples. -/
lemma calibrateFinish_fields (s : DriverState) (oc1 : Nat) (bh bl : Fin 9 → Nat) :
    (calibrateFinish s oc1 bh bl).1.sensorID = s.sensorID ∧
    (calibrateFinish s oc1 bh bl).1.x = s.x ∧
    (calibrateFinish s oc1 bh bl).1.y = s.y ∧
    (calibrateFinish s oc1 bh bl).1.z = s.z ∧
    (calibrateFinish s oc1 bh bl).1.odr_cache = s.odr_cache ∧
    (calibrateFinish s oc1 bh bl).1.bx = calibBias (readXYZ bh).1 (readXYZ bl).1 ∧
    (calibrateFinish s oc1 bh bl).1.bY = calibBias (readXYZ bh).2.1 (readXYZ bl).2.1 ∧
    (calibrateFinish s oc1 bh bl).1.bz = calibBias (readXYZ bh).2.2 (readXYZ bl).2.2 := by
  simp only [calibrateFinish]
  by_cases hm : s.ctrl2_cache &&& 0x10 = 0
  · simp [setContinuousMode, isContinuousMode, hm]
  · simp [setContinuousMode, isContinuousMode, hm]

/-- `Reg` tags compared against `ctrl1` in the write log. -/
lemma ctrl0_beq_ctrl1 : (Reg.ctrl0 == Reg.ctrl1) = false := by decide

/-- `ctrl2` is not `ctrl1`. -/
lemma ctrl2_beq_ctrl1 : (Reg.ctrl2 == Reg.ctrl1) = false := by decide

/-- `ctrl1` is `ctrl1`. -/
lemma ctrl1_beq_ctrl1 : (Reg.ctrl1 == Reg.ctrl1) = true := by decide

/-- The ctrl1 writes of a completed `calibrateFinish` are the measurement
configuration byte `0x20` followed by the restored entry byte, so the last
ctrl1 write is the saved byte. -/
lemma calibrateFinish_ctrl1_writes (s : DriverState) (oc1 : Nat) (bh bl : Fin 9 → Nat) :
    ((calibrateFinish s oc1 bh bl).2.filter (fun w => w.1 == Reg.ctrl1)).getLast?
      = some (Reg.ctrl1, oc1) := by
  simp only [calibrateFinish, setContinuousMode, isContinuousMode, magnetSetReset]
  by_cases hm : s.ctrl2_cache &&& 0x10 = 0
  · simp only [hm, bne_self_eq_false, Bool.false_eq_true, if_false]
    simp [List.filter, ctrl0_beq_ctrl1, ctrl2_beq_ctrl1, ctrl1_beq_ctrl1]
  · have ht : (s.ctrl2_cache &&& 0x10 != 0) = true := by
      simp only [bne_iff_ne, ne_eq]
      exact hm
    simp only [ht, if_true]
    simp [List.filter, ctrl0_beq_ctrl1, ctrl2_beq_ctrl1, ctrl1_beq_ctrl1]

/-- C8: a completed `calibrate` call restores the saved state: the ctrl2
cache equals its value before the call, the last ctrl1 register write is
the byte read on entry, `isContinuousMode` reports the same value as
before, and every driver field except the bias vector is unchanged. -/
theorem calibrate_restores_state
    (s : DriverState) (old_ctrl1 : Nat) (status1 : Nat → Nat)
    (bufHigh : Fin 9 → Nat) (status2 : Nat → Nat) (bufLow : Fin 9 → Nat)
    (fuel : Nat) (p : DriverState × List RegWrite)
    (hc : s.ctrl2_cache < 256)
    (heq : calibrate s old_ctrl1 status1 bufHigh status2 bufLow fuel = some p) :
    p.1.ctrl2_cache = s.ctrl2_cache ∧
    isContinuousMode p.1 = isContinuousMode s ∧
    (p.2.filter (fun w => w.1 == Reg.ctrl1)).getLast? = some (Reg.ctrl1, old_ctrl1) ∧
    p.1.sensorID = s.sensorID ∧ p.1.x = s.x ∧ p.1.y = s.y ∧ p.1.z = s.z ∧
    p.1.odr_cache = s.odr_cache := by
  rw [calibrate] at heq
  cases h1 : busyPoll (fun n => magReadDone (status1 n)) 0 fuel with
  | none => rw [h1] at heq; cases heq
  | some k =>
    rw [h1] at heq
    cases h2 : busyPoll (fun n => magReadDone (status2 n)) 0 fuel with
    | none => rw [h2] at heq; cases heq
    | some k2 =>
      rw [h2] at heq
      cases heq
      have hcache := calibrateFinish_cache s old_ctrl1 bufHigh bufLow hc
      have hf := calibrateFinish_fields s old_ctrl1 bufHigh bufLow
      refine ⟨hcache, ?_, calibrateFinish_ctrl1_writes s old_ctrl1 bufHigh bufLow,
        hf.1, hf.2.1, hf.2.2.1, hf.2.2.2.1, hf.2.2.2.2.1⟩
      rw [isContinuousMode, isContinuousMode, hcache]

/-- Witness for C8 at a concrete completed calibration from a
continuous-mode state. -/
theorem calibrate_restores_state_witness :
    ∃ p, calibrate sA 0x20 (fun _ => 255) sampleBuf (fun _ => 255) sampleBuf 1
        = some p ∧ p.1.ctrl2_cache = sA.ctrl2_cache := by
  cases E : calibrate sA 0x20 (fun _ => 255) sampleBuf (fun _ => 255) sampleBuf 1 with
  | none => exact absurd E (by decide)
  | some p =>
    exact ⟨p, rfl, (calibrate_restores_state sA 0x20 (fun _ => 255) sampleBuf
      (fun _ => 255) sampleBuf 1 p (by decide) E).1⟩

/-- The truncated half of an integer is within 1 of the exact half. -/
lemma tdiv2_near (a : Int) : (a - 2 * Int.tdiv a 2).natAbs ≤ 1 := by
  rcases a with n | m
  · rw [show Int.tdiv (Int.ofNat n) 2 = Int.ofNat (n / 2) from rfl]
    simp only [Int.ofNat_eq_coe]
    omega
  · rw [show Int.tdiv (Int.negSucc m) 2 = -((m + 1) / 2 : Nat) from rfl]
    simp only [Int.negSucc_eq]
    omega

/-- C3: a completed `calibrate` stores per axis the C-truncated mean
`(high + low) / 2` of the two opposite-saturation samples; this mean is
exact whenever `high + low` is even and is always within 1 of the exact
mean (a rounding of it), and `high = 100000, low = -40` yields `49980`. -/
theorem calibrate_bias_is_rounded_mean :
    (∀ (s : DriverState) (old_ctrl1 : Nat) (status1 : Nat → Nat)
        (bufHigh : Fin 9 → Nat) (status2 : Nat → Nat) (bufLow : Fin 9 → Nat)
        (fuel : Nat) (p : DriverState × List RegWrite),
      calibrate s old_ctrl1 status1 bufHigh status2 bufLow fuel = some p →
      p.1.bx = calibBias (readXYZ bufHigh).1 (readXYZ bufLow).1 ∧
      p.1.bY = calibBias (readXYZ bufHigh).2.1 (readXYZ bufLow).2.1 ∧
      p.1.bz = calibBias (readXYZ bufHigh).2.2 (readXYZ bufLow).2.2) ∧
    (∀ high low : Int, (high + low) % 2 = 0 → 2 * calibBias high low = high + low) ∧
    (∀ high low : Int, (high + low - 2 * calibBias high low).natAbs ≤ 1) ∧
    calibBias 100000 (-40) = 49980 := by
  refine ⟨?_, ?_, ?_, by decide⟩
  · intro s oc1 st1 bh st2 bl fuel p heq
    rw [calibrate] at heq
    cases h1 : busyPoll (fun n => magReadDone (st1 n)) 0 fuel with
    | none => rw [h1] at heq; cases heq
    | some k =>
      rw [h1] at heq
      cases h2 : busyPoll (fun n => magReadDone (st2 n)) 0 fuel with
      | none => rw [h2] at heq; cases heq
      | some k2 =>
        rw [h2] at heq
        cases heq
        have hf := calibrateFinish_fields s oc1 bh bl
        exact ⟨hf.2.2.2.2.2.1, hf.2.2.2.2.2.2.1, hf.2.2.2.2.2.2.2⟩
  · intro high low hev
    have e1 := Int.tdiv_add_tmod (high + low) 2
    have e2 : (high + low).tmod 2 = 0 := Int.tmod_eq_zero_of_dvd (by omega)
    rw [calibBias]
    omega
  · intro high low
    rw [calibBias]
    exact tdiv2_near (high + low)

/-- Witness for C3: a concrete completed calibration, an even concrete
pair, and the concrete pair from the spec. -/
theorem calibrate_bias_is_rounded_mean_witness :
    (∃ p, calibrate sZero 0x20 (fun _ => 255) sampleBuf (fun _ => 255) sampleBuf 1
        = some p ∧ p.1.bx = calibBias (readXYZ sampleBuf).1 (readXYZ sampleBuf).1) ∧
    2 * calibBias 100001 (-1) = 100000 := by
  constructor
  · cases E : calibrate sZero 0x20 (fun _ => 255) sampleBuf (fun _ => 255) sampleBuf 1 with
    | none => exact absurd E (by decide)
    | some p =>
      exact ⟨p, rfl, (calibrate_bias_is_rounded_mean.1 sZero 0x20 (fun _ => 255)
        sampleBuf (fun _ => 255) sampleBuf 1 p E).1⟩
  · exact calibrate_bias_is_rounded_mean.2.1 100001 (-1) (by decide)

end MMC56x3
